import Mathlib

/-!
Shallow embedding of the keyword-matching core of the Flask resume
analyser (`resume/app.py`): text extraction, keyword comparison,
resume optimization and DOCX export, together with proofs of the
specified properties.
-/

set_option autoImplicit false

/-- A character matched by Python's regex class `\w`
(alphanumeric or underscore). -/
def isWordChar (c : Char) : Bool := c.isAlphanum || c = '_'

/-- Python's `str.lower()`: lowercase the string character by character. -/
def pyLower (s : String) : String := String.mk (s.data.map Char.toLower)

/-- Scanner for `re.findall(r'\b\w+\b', s)`: walks the character list,
accumulating the current run of word characters (reversed) in `acc`,
and emits each maximal run as a token. -/
def tokenizeAux : List Char → List Char → List String
  | [], acc => if acc.isEmpty then [] else [String.mk acc.reverse]
  | c :: cs, acc =>
    if isWordChar c then tokenizeAux cs (c :: acc)
    else if acc.isEmpty then tokenizeAux cs []
    else String.mk acc.reverse :: tokenizeAux cs []

/-- `re.findall(r'\b\w+\b', text.lower())`: the maximal runs of
word characters of the lowercased text, in order. -/
def tokens (text : String) : List String := tokenizeAux (pyLower text).data []

/-- `set(re.findall(r'\b\w+\b', text.lower()))`. -/
def wordSet (text : String) : Finset String := (tokens text).toFinset

/-- The dictionary returned by `compare_with_job_description`. -/
structure AnalysisResult where
  score : ℚ
  missing_keywords : List String
deriving DecidableEq

/-- `compare_with_job_description(resume_text, job_description)`:
tokenize both texts into word sets, score is the percentage of job
words found in the resume (`0` when there are no job words), and
`missing_keywords` materializes the set difference
`job_words - resume_words` into a list. -/
def compare_with_job_description (resume_text job_description : String) :
    AnalysisResult :=
  let resume_words := wordSet resume_text
  let job_words := wordSet job_description
  let score : ℚ :=
    if 0 < job_words.card then
      (((job_words ∩ resume_words).card : ℚ) / (job_words.card : ℚ)) * 100
    else 0
  { score := score
    missing_keywords :=
      (tokens job_description).dedup.filter (fun w => w ∉ resume_words) }

theorem mk_data (L : List Char) : (String.mk L).data = L := rfl

/-- Every token emitted by the scanner is a nonempty run of word
characters (given that the accumulator holds only word characters). -/
theorem tokenizeAux_wordChars (cs : List Char) :
    ∀ acc : List Char, (∀ c ∈ acc, isWordChar c = true) →
      ∀ w ∈ tokenizeAux cs acc,
        w.data ≠ [] ∧ ∀ c ∈ w.data, isWordChar c = true := by
  induction cs with
  | nil =>
    intro acc hacc w hw
    cases acc with
    | nil => simp [tokenizeAux] at hw
    | cons a as =>
      simp only [tokenizeAux, List.isEmpty_cons, if_neg Bool.false_ne_true,
        List.mem_singleton] at hw
      subst hw
      refine ⟨by simp [mk_data], ?_⟩
      intro c hc
      rw [mk_data, List.mem_reverse] at hc
      exact hacc c hc
  | cons c cs ih =>
    intro acc hacc w hw
    by_cases hword : isWordChar c = true
    · rw [tokenizeAux, if_pos hword] at hw
      refine ih (c :: acc) ?_ w hw
      intro d hd
      rcases List.mem_cons.mp hd with h | h
      · exact h ▸ hword
      · exact hacc d h
    · rw [tokenizeAux, if_neg hword] at hw
      by_cases hacc0 : acc.isEmpty
      · rw [if_pos hacc0] at hw
        exact ih [] (by simp) w hw
      · rw [if_neg hacc0] at hw
        rcases List.mem_cons.mp hw with h | h
        · subst h
          cases acc with
          | nil => simp at hacc0
          | cons a as =>
            refine ⟨by simp [mk_data], ?_⟩
            intro d hd
            rw [mk_data, List.mem_reverse] at hd
            exact hacc d hd
        · exact ih [] (by simp) w h

theorem tokens_wordChars (s : String) :
    ∀ w ∈ tokens s, w.data ≠ [] ∧ ∀ c ∈ w.data, isWordChar c = true :=
  tokenizeAux_wordChars (pyLower s).data [] (by simp)

example :
    (compare_with_job_description "Python developer with Flask experience"
      "Python Flask SQL developer").missing_keywords = ["sql"] := by decide

example :
    (compare_with_job_description "Python developer with Flask experience"
      "Python Flask SQL developer").score = 75 := by
  have h1 : (wordSet "Python Flask SQL developer" ∩
      wordSet "Python developer with Flask experience").card = 3 := by decide
  have h2 : (wordSet "Python Flask SQL developer").card = 4 := by decide
  simp only [compare_with_job_description, h1, h2]
  norm_num

/-- Round a rational to the nearest integer, ties to even, as Python's
float formatting does. -/
def roundHalfEven (q : ℚ) : ℤ :=
  let f : ℤ := ⌊q⌋
  if q - f < 1 / 2 then f
  else if 1 / 2 < q - f then f + 1
  else if f % 2 = 0 then f else f + 1

/-- Python's format specifier `:.1f`: render the number rounded to one
decimal place. -/
def formatOneDecimal (q : ℚ) : String :=
  let t : ℤ := roundHalfEven (q * 10)
  if t < 0 then "-" ++ toString ((-t) / 10) ++ "." ++ toString ((-t) % 10)
  else toString (t / 10) ++ "." ++ toString (t % 10)

/-- `optimize_resume(resume_text, job_description, analysis)`: when the
analysis has missing keywords, append the fixed-format suggestion block
(first 10 missing keywords comma-joined, score formatted to one decimal
place); otherwise return the resume text unchanged. -/
def optimize_resume (resume_text job_description : String)
    (analysis : AnalysisResult) : String :=
  if analysis.missing_keywords.isEmpty then resume_text
  else
    resume_text
      ++ "\n\n--- OPTIMIZATION SUGGESTIONS ---\n"
      ++ "Consider adding these keywords: "
      ++ String.intercalate ", " (analysis.missing_keywords.take 10) ++ "\n"
      ++ "Your resume matches " ++ formatOneDecimal analysis.score
      ++ "% of job requirements.\n"

/-- C1: `compare_with_job_description` tokenizes both strings by
lowercasing and extracting maximal runs of word (alphanumeric or
underscore) characters into deduplicated sets, and its score is `0`
when the job word set is empty and otherwise
`100 * |jobWords ∩ resumeWords| / |jobWords|`; every extracted token
is a nonempty run of word characters. -/
theorem compare_score_formula (r j : String) :
    ((compare_with_job_description r j).score =
      if wordSet j = ∅ then 0
      else 100 * ((wordSet j ∩ wordSet r).card : ℚ) / ((wordSet j).card : ℚ)) ∧
    (∀ s : String, (tokens s).all
      (fun w => (!w.data.isEmpty) && w.data.all isWordChar) = true) := by
  constructor
  · rcases eq_or_ne (wordSet j) ∅ with h | h
    · simp [compare_with_job_description, h]
    · have hc : 0 < (wordSet j).card :=
        Finset.card_pos.mpr (Finset.nonempty_iff_ne_empty.mpr h)
      simp only [compare_with_job_description, if_pos hc, if_neg h]
      ring
  · intro s
    refine List.all_eq_true.mpr ?_
    intro w hw
    obtain ⟨h1, h2⟩ := tokens_wordChars s w hw
    have hne : w.data.isEmpty = false := by
      cases hd : w.data with
      | nil => exact absurd hd h1
      | cons a as => rfl
    have hall : w.data.all isWordChar = true := List.all_eq_true.mpr h2
    simp [hne, hall]

/-- C2: for all input strings the score of
`compare_with_job_description` lies in the interval `[0, 100]`. -/
theorem compare_score_in_range (r j : String) :
    0 ≤ (compare_with_job_description r j).score ∧
      (compare_with_job_description r j).score ≤ 100 := by
  simp only [compare_with_job_description]
  by_cases h : 0 < (wordSet j).card
  · rw [if_pos h]
    have hb : (0:ℚ) < ((wordSet j).card : ℚ) := by exact_mod_cast h
    have hle : ((wordSet j ∩ wordSet r).card : ℚ) ≤ ((wordSet j).card : ℚ) := by
      exact_mod_cast Finset.card_le_card Finset.inter_subset_left
    have hone : ((wordSet j ∩ wordSet r).card : ℚ) / ((wordSet j).card : ℚ) ≤ 1 :=
      (div_le_one hb).mpr hle
    have hpos : (0:ℚ) ≤ ((wordSet j ∩ wordSet r).card : ℚ) / ((wordSet j).card : ℚ) :=
      div_nonneg (by positivity) (le_of_lt hb)
    constructor
    · nlinarith
    · nlinarith
  · rw [if_neg h]
    norm_num

/-- C3: the `missing_keywords` list of `compare_with_job_description`
materializes the set difference `jobWords - resumeWords`: a word is in
the list exactly when it is a token of the job description and not a
token of the resume. -/
theorem compare_missing_keywords_iff (r j w : String) :
    w ∈ (compare_with_job_description r j).missing_keywords ↔
      w ∈ wordSet j ∧ w ∉ wordSet r := by
  simp [compare_with_job_description, wordSet, List.mem_filter,
    List.mem_dedup, List.mem_toFinset]

/-- C4: on an empty job description, `compare_with_job_description`
returns score `0` with no missing keywords, and the subsequent
`optimize_resume` call leaves the resume text unchanged. -/
theorem compare_empty_job_description (r : String) :
    (compare_with_job_description r "").score = 0 ∧
    (compare_with_job_description r "").missing_keywords = [] ∧
    optimize_resume r "" (compare_with_job_description r "") = r :=
  ⟨rfl, rfl, rfl⟩

/-- C5: `optimize_resume` returns the resume text unchanged when the
analysis has no missing keywords (so re-applying it is the identity),
and otherwise appends the fixed-format suggestion block built from the
first 10 missing keywords (comma-joined) and the score formatted to one
decimal place. -/
theorem optimize_resume_spec (r jd : String) (a : AnalysisResult) :
    (a.missing_keywords = [] →
      optimize_resume r jd a = r ∧
      optimize_resume (optimize_resume r jd a) jd a = r) ∧
    (a.missing_keywords ≠ [] →
      optimize_resume r jd a =
        r ++ "\n\n--- OPTIMIZATION SUGGESTIONS ---\n"
          ++ "Consider adding these keywords: "
          ++ String.intercalate ", " (a.missing_keywords.take 10) ++ "\n"
          ++ "Your resume matches " ++ formatOneDecimal a.score
          ++ "% of job requirements.\n") := by
  constructor
  · intro h
    constructor <;> simp [optimize_resume, h]
  · intro h
    cases hm : a.missing_keywords with
    | nil => exact absurd hm h
    | cons x xs => simp [optimize_resume, hm]

/-- A character stripped by Python's `str.strip()`. -/
def isPySpace (c : Char) : Bool :=
  c = ' ' || c = '\t' || c = '\n' || c = '\r' || c = '\x0b' || c = '\x0c'

/-- Python's `str.strip()`: drop leading and trailing whitespace. -/
def pyStrip (s : String) : String :=
  String.mk (((s.data.dropWhile isPySpace).reverse.dropWhile isPySpace).reverse)

/-- A block of the generated DOCX document: `doc.add_heading` adds a
heading block, `doc.add_paragraph` a paragraph block. -/
inductive DocxBlock where
  | heading (level : Nat) (text : String)
  | paragraph (text : String)
deriving DecidableEq

/-- The document built by `python-docx`'s `Document()` object, as the
ordered list of its blocks. -/
structure BuiltDocx where
  blocks : List DocxBlock
deriving DecidableEq

/-- `create_optimized_docx(original_text, optimized_text)`: a fresh
document with the fixed heading, then one paragraph per line of the
optimized text whose `strip()` is non-empty (in order). The in-memory
byte buffer step is the identity on this content. -/
def create_optimized_docx (original_text optimized_text : String) : BuiltDocx :=
  { blocks := DocxBlock.heading 0 "Optimized Resume" ::
      ((optimized_text.splitOn "\n").filter
        (fun para => pyStrip para ≠ "")).map DocxBlock.paragraph }

/-- `extract_text_from_pdf(pdf_file)`: fold over the pages, appending
each page's extracted text when it is truthy and `""` otherwise. A page
is modelled by its extraction result (`none` = no extractable text). -/
def extract_text_from_pdf (pages : List (Option String)) : String :=
  pages.foldl
    (fun text page =>
      text ++
        match page with
        | some t => if t = "" then "" else t
        | none => "")
    ""

/-- A DOCX file opened with `Document(path)`, as its paragraph texts. -/
structure DocxFile where
  paragraphs : List String

/-- `extract_text_from_docx(docx_file)`: fold over the paragraphs,
appending each paragraph text followed by a newline. -/
def extract_text_from_docx (doc : DocxFile) : String :=
  doc.paragraphs.foldl (fun text para => text ++ para ++ "\n") ""

/-- Contents a resume file can parse to: a PDF (list of pages) or a
DOCX (list of paragraphs); `none` from the reader models a file that
cannot be opened or parsed as the declared type. -/
inductive FileData where
  | pdfFile (pages : List (Option String))
  | docxFile (paragraphs : List String)

/-- `parse_resume(file_path, file_type)`: dispatch on the type tag,
extract text for `pdf`/`docx`, and fall through to `""` (no error) for
any other tag. -/
def parse_resume (readFile : String → Option FileData)
    (file_path file_type : String) : Except String String :=
  if file_type = "pdf" then
    match readFile file_path with
    | some (FileData.pdfFile pages) => Except.ok (extract_text_from_pdf pages)
    | _ => Except.error "ExtractionError"
  else if file_type = "docx" then
    match readFile file_path with
    | some (FileData.docxFile paras) => Except.ok (extract_text_from_docx ⟨paras⟩)
    | _ => Except.error "ExtractionError"
  else Except.ok ""

theorem optimize_resume_spec_witness :
    (optimize_resume "abc" "jd" ⟨75, []⟩ = "abc" ∧
      optimize_resume (optimize_resume "abc" "jd" ⟨75, []⟩) "jd" ⟨75, []⟩
        = "abc") ∧
    optimize_resume "abc" "jd" ⟨75, ["sql"]⟩ =
      "abc" ++ "\n\n--- OPTIMIZATION SUGGESTIONS ---\n"
        ++ "Consider adding these keywords: "
        ++ String.intercalate ", " ((["sql"] : List String).take 10) ++ "\n"
        ++ "Your resume matches " ++ formatOneDecimal 75
        ++ "% of job requirements.\n" :=
  ⟨(optimize_resume_spec "abc" "jd" ⟨75, []⟩).1 rfl,
   (optimize_resume_spec "abc" "jd" ⟨75, ["sql"]⟩).2 (by decide)⟩

theorem foldl_append_init (l : List String) :
    ∀ s : String, l.foldl (fun r t => r ++ t) s =
      s ++ l.foldl (fun r t => r ++ t) "" := by
  induction l with
  | nil => intro s; simp [String.append_empty]
  | cons x xs ih =>
    intro s
    rw [List.foldl_cons, List.foldl_cons, ih (s ++ x), ih ("" ++ x),
      String.empty_append, String.append_assoc]

theorem join_cons (a : String) (l : List String) :
    String.join (a :: l) = a ++ String.join l := by
  simp only [String.join, List.foldl_cons]
  rw [String.empty_append]
  exact foldl_append_init l a

theorem foldl_append_join {α : Type} (f : α → String) :
    ∀ (L : List α) (s : String),
      L.foldl (fun t a => t ++ f a) s = s ++ String.join (L.map f) := by
  intro L
  induction L with
  | nil => intro s; simp [String.join, String.append_empty]
  | cons x xs ih =>
    intro s
    rw [List.map_cons, List.foldl_cons, ih (s ++ f x), join_cons,
      ← String.append_assoc]

theorem pyStrip_eq_empty_iff (s : String) :
    pyStrip s = "" ↔ ∀ c ∈ s.data, isPySpace c = true := by
  constructor
  · intro h
    have h0 : ((s.data.dropWhile isPySpace).reverse.dropWhile
        isPySpace).reverse = [] := congrArg String.data h
    rw [List.reverse_eq_nil_iff, List.dropWhile_eq_nil_iff] at h0
    intro c hc
    rw [← List.takeWhile_append_dropWhile isPySpace s.data,
      List.mem_append] at hc
    rcases hc with hc | hc
    · exact List.mem_takeWhile_imp hc
    · exact h0 c (List.mem_reverse.mpr hc)
  · intro h
    have h0 : s.data.dropWhile isPySpace = [] :=
      List.dropWhile_eq_nil_iff.mpr h
    simp [pyStrip, h0]

theorem pyStrip_filter_eq (l : List String) :
    l.filter (fun para => pyStrip para ≠ "") =
      l.filter (fun para => !(para.data.all isPySpace)) := by
  apply List.filter_congr
  intro x _
  by_cases h : pyStrip x = ""
  · have hall : x.data.all isPySpace = true :=
      List.all_eq_true.mpr ((pyStrip_eq_empty_iff x).mp h)
    simp [h, hall]
  · have hall : ¬ x.data.all isPySpace = true := fun hc =>
      h ((pyStrip_eq_empty_iff x).mpr (List.all_eq_true.mp hc))
    simp [h, hall]

/-- C6: the document produced by `create_optimized_docx` is the fixed
heading `Optimized Resume` followed by exactly the non-blank
(not-all-whitespace) lines of the input text, in order, as paragraphs;
blank lines are dropped. -/
theorem create_optimized_docx_blocks (o t : String) :
    (create_optimized_docx o t).blocks =
      DocxBlock.heading 0 "Optimized Resume" ::
        ((t.splitOn "\n").filter
          (fun l => !(l.data.all isPySpace))).map DocxBlock.paragraph := by
  simp only [create_optimized_docx]
  rw [pyStrip_filter_eq]

/-- C7 (amended): when the job description has at least one token and
every job token occurs among the resume tokens, the score is `100` and
there are no missing keywords. -/
theorem compare_full_containment (r j : String)
    (hne : wordSet j ≠ ∅) (hsub : wordSet j ⊆ wordSet r) :
    (compare_with_job_description r j).score = 100 ∧
    (compare_with_job_description r j).missing_keywords = [] := by
  have hc : 0 < (wordSet j).card :=
    Finset.card_pos.mpr (Finset.nonempty_iff_ne_empty.mpr hne)
  constructor
  · have hinter : wordSet j ∩ wordSet r = wordSet j :=
      Finset.inter_eq_left.mpr hsub
    have hne0 : ((wordSet j).card : ℚ) ≠ 0 := by
      exact_mod_cast Nat.pos_iff_ne_zero.mp hc
    simp only [compare_with_job_description]
    rw [if_pos hc, hinter, div_self hne0, one_mul]
  · simp only [compare_with_job_description]
    rw [List.filter_eq_nil_iff]
    intro w hw
    have hwj : w ∈ wordSet j := by
      rw [wordSet, List.mem_toFinset]
      exact List.mem_dedup.mp hw
    simp [hsub hwj]

theorem compare_full_containment_witness :
    (compare_with_job_description "python flask" "flask").score = 100 ∧
    (compare_with_job_description "python flask" "flask").missing_keywords
      = [] :=
  compare_full_containment "python flask" "flask" (by decide) (by decide)

/-- C7 as literally stated fails on the code: with an empty job
description every job token is (vacuously) contained in the resume,
yet the score is `0`, not `100`. -/
theorem compare_full_containment_counterexample :
    wordSet "" ⊆ wordSet "" ∧
      (compare_with_job_description "" "").score ≠ 100 := by
  constructor
  · exact fun w hw => hw
  · have h0 : (compare_with_job_description "" "").score = 0 := rfl
    rw [h0]
    norm_num

/-- C8: text extraction is a fold over the document parts: for a PDF it
concatenates each page's extractable text in page order, a page with no
text contributing the empty string; for a DOCX it concatenates the
paragraph texts in order, each followed by a newline. -/
theorem extraction_concatenates (pages : List (Option String))
    (doc : DocxFile) :
    extract_text_from_pdf pages =
      String.join (pages.map (fun p => p.getD "")) ∧
    extract_text_from_docx doc =
      String.join (doc.paragraphs.map (fun p => p ++ "\n")) := by
  constructor
  · have hfun : (fun (text : String) (page : Option String) =>
        text ++
          match page with
          | some t => if t = "" then "" else t
          | none => "") =
        fun text page => text ++ page.getD "" := by
      funext text page
      cases page with
      | none => rfl
      | some t =>
        by_cases h : t = ""
        · simp [h]
        · simp [h]
    rw [extract_text_from_pdf, hfun,
      foldl_append_join (fun p : Option String => p.getD "") pages "",
      String.empty_append]
  · have hfun : (fun (text para : String) => text ++ para ++ "\n") =
        fun text para => text ++ (para ++ "\n") := by
      funext text para
      rw [String.append_assoc]
    rw [extract_text_from_docx, hfun,
      foldl_append_join (fun p : String => p ++ "\n") doc.paragraphs "",
      String.empty_append]

/-- C9: `create_optimized_docx` is deterministic and its output does
not depend on the `original_text` argument. -/
theorem create_optimized_docx_ignores_original (o1 o2 t : String) :
    create_optimized_docx o1 t = create_optimized_docx o2 t := rfl

/-- C10: for a file type tag that is neither `pdf` nor `docx`,
`parse_resume` returns the empty string and raises no error, for every
file and file system. -/
theorem parse_resume_unsupported_type (readFile : String → Option FileData)
    (file_path file_type : String)
    (hp : file_type ≠ "pdf") (hd : file_type ≠ "docx") :
    parse_resume readFile file_path file_type = Except.ok "" := by
  simp [parse_resume, hp, hd]

theorem parse_resume_unsupported_type_witness :
    parse_resume (fun _ => none) "resume.txt" "txt" = Except.ok "" :=
  parse_resume_unsupported_type (fun _ => none) "resume.txt" "txt"
    (by decide) (by decide)
